import Mathlib

/-!
Verification development for the `doorways` game-library launcher.

The definitions below are a shallow embedding of `src/main.rs`:
the catalog merge engine (`merge_with`), the launch coordinator
(`act` / `launch`), the child-process monitor (`poll_active`,
`processStep`, `steam_status`), the sort-and-display helpers and
the `--refresh` flow of `main`.
-/

namespace Doorways

/-- Embeds `enum ImageSource` from `src/main.rs`. -/
inductive ImageSource where
  | Url (s : String)
  | Path (s : String)
deriving DecidableEq

/-- Embeds `enum Launcher` from `src/main.rs` (the source tag). -/
inductive Launcher where
  | Steam
  | Twitch
  | Epic
  | Unknown
deriving DecidableEq

/-- Embeds `struct Game` from `src/main.rs`. Paths are modelled as strings. -/
structure Game where
  id : String
  title : String
  image_path : Option String := none
  image_src : ImageSource
  installed : Bool
  kids : Option Bool := none
  hidden : Option Bool := none
  players : Option Nat := none
  launch_url : Option String := none
  install_directory : Option String := none
  working_subdir_override : Option String := none
  command : Option String := none
  args : Option (List String) := none
  launcher : Launcher := Launcher.Unknown
deriving DecidableEq

/-- Default game record used only as the `getD` fallback in statements. -/
def dg : Game :=
  { id := "", title := "", image_src := ImageSource.Path "", installed := false }

/-- Body of the matched case of the inner loop of `merge_with`
(`src/main.rs` lines 228-238): nine fields of the existing entry
`custom` are overwritten with the incoming entry `orig`'s values;
the remaining fields (`id`, `kids`, `hidden`, `players`, `image_path`)
are untouched. -/
def overwriteFrom (custom orig : Game) : Game :=
  { custom with
    title := orig.title
    image_src := orig.image_src
    install_directory := orig.install_directory
    working_subdir_override := orig.working_subdir_override
    installed := orig.installed
    command := orig.command
    args := orig.args
    launch_url := orig.launch_url
    launcher := orig.launcher }

/-- One iteration of the outer loop of `merge_with`: the accumulator is
the pair (current catalog, pending additions `to_add`). -/
def mergeStep (acc : List Game × List Game) (orig : Game) : List Game × List Game :=
  let found := acc.1.any (fun custom => orig.id == custom.id)
  let updated := acc.1.map
    (fun custom => if orig.id == custom.id then overwriteFrom custom orig else custom)
  (updated, if found then acc.2 else acc.2 ++ [orig])

/-- Embeds `Vec::<Game>::merge_with` from `src/main.rs` lines 221-248:
fold the incoming entries through `mergeStep`, then append the pending
additions to the existing catalog. -/
def merge_with (self other : List Game) : List Game :=
  let r := other.foldl mergeStep (self, [])
  r.1 ++ r.2

/-- Cumulative effect of the inner loop on one existing entry: apply every
incoming entry in order, overwriting whenever the ids match. -/
def applyAll (other : List Game) (custom : Game) : Game :=
  other.foldl (fun c o => if o.id == c.id then overwriteFrom c o else c) custom

/-- Whether some entry of `l` carries id `x` (the `found` test). -/
def idKnown (l : List Game) (x : String) : Bool :=
  l.any (fun c => x == c.id)

theorem overwriteFrom_id (c o : Game) : (overwriteFrom c o).id = c.id := rfl

theorem overwriteFrom_kids (c o : Game) : (overwriteFrom c o).kids = c.kids := rfl

theorem overwriteFrom_hidden (c o : Game) : (overwriteFrom c o).hidden = c.hidden := rfl

theorem upd_id (o c : Game) :
    (if o.id == c.id then overwriteFrom c o else c).id = c.id := by
  split <;> rfl

theorem applyAll_nil (c : Game) : applyAll [] c = c := rfl

theorem applyAll_cons (o : Game) (rest : List Game) (c : Game) :
    applyAll (o :: rest) c
      = applyAll rest (if o.id == c.id then overwriteFrom c o else c) := rfl

theorem applyAll_id (other : List Game) (c : Game) : (applyAll other c).id = c.id := by
  induction other generalizing c with
  | nil => rfl
  | cons o rest ih =>
    rw [applyAll_cons, ih, upd_id]

theorem applyAll_kids (other : List Game) (c : Game) :
    (applyAll other c).kids = c.kids := by
  induction other generalizing c with
  | nil => rfl
  | cons o rest ih =>
    rw [applyAll_cons, ih]
    split <;> rfl

theorem applyAll_hidden (other : List Game) (c : Game) :
    (applyAll other c).hidden = c.hidden := by
  induction other generalizing c with
  | nil => rfl
  | cons o rest ih =>
    rw [applyAll_cons, ih]
    split <;> rfl

theorem idKnown_upd (o : Game) (l : List Game) (x : String) :
    idKnown (l.map
      (fun c => if o.id == c.id then overwriteFrom c o else c)) x = idKnown l x := by
  unfold idKnown
  rw [List.any_map]
  congr 1
  funext c
  simp only [Function.comp_apply]
  rw [upd_id]

theorem foldl_mergeStep_eq (other : List Game) : ∀ self toAdd : List Game,
    other.foldl mergeStep (self, toAdd)
      = (self.map (fun c => applyAll other c),
         toAdd ++ other.filter (fun o => !(idKnown self o.id))) := by
  induction other with
  | nil =>
    intro self toAdd
    simp [applyAll]
  | cons o rest ih =>
    intro self toAdd
    rw [List.foldl_cons]
    have hstep : mergeStep (self, toAdd) o
        = (self.map (fun c => if o.id == c.id then overwriteFrom c o else c),
           if idKnown self o.id then toAdd else toAdd ++ [o]) := rfl
    rw [hstep, ih]
    simp only [Prod.mk.injEq]
    constructor
    · rw [List.map_map]
      apply List.map_congr_left
      intro c _
      rfl
    · rw [List.filter_congr (fun o' _ => by rw [idKnown_upd o self o'.id])]
      rw [List.filter_cons]
      by_cases h : idKnown self o.id
      · simp [h]
      · simp [h]

/-- Characterization of the merge: existing entries stay in place (each one
possibly overwritten by matching incoming entries), and the incoming entries
whose id is unknown are appended at the end, in incoming order. -/
theorem merge_with_eq (self other : List Game) :
    merge_with self other
      = self.map (fun c => applyAll other c)
        ++ other.filter (fun o => !(idKnown self o.id)) := by
  unfold merge_with
  rw [foldl_mergeStep_eq]
  simp

theorem merge_with_length_le (self other : List Game) :
    self.length ≤ (merge_with self other).length := by
  rw [merge_with_eq, List.length_append, List.length_map]
  exact Nat.le_add_right _ _

theorem merge_with_getD (self other : List Game) (j : Nat) (hj : j < self.length) :
    (merge_with self other).getD j dg = applyAll other (self.getD j dg) := by
  rw [merge_with_eq]
  have h1 : (self.map (fun c => applyAll other c)).get? j
      = some (applyAll other (self.get ⟨j, hj⟩)) := by
    rw [List.get?_map, List.get?_eq_get hj]
    rfl
  have h2 : self.get? j = some (self.get ⟨j, hj⟩) := List.get?_eq_get hj
  rw [List.getD_eq_get?, List.getD_eq_get?, List.get?_append, h1, h2]
  · rfl
  · rw [List.length_map]; exact hj

/-- Embeds the error values produced by `Game::launch`: the final
`anyhow!("Unable to launch: Missing launch_url or command")` and the
`?`-propagated spawn failure. -/
inductive LaunchError where
  | MissingLaunchTarget
  | SpawnFailure (msg : String)
deriving DecidableEq

/-- Embeds `enum LaunchStatus` from `src/main.rs`. -/
inductive LaunchStatus where
  | Starting
  | Running
  | Success
  | FailedToLaunch (reason : LaunchError)
  | Error (code : Int)
deriving DecidableEq

/-- The shared `HashMap<usize, LaunchStatus>` behind the mutex, modelled as an
association list where the most recent insertion shadows older ones. -/
abbrev StatusMap := List (Nat × LaunchStatus)

/-- Lookup in the status map (`status.get(&i)`). -/
def getStatus (m : StatusMap) (i : Nat) : Option LaunchStatus :=
  (m.find? (fun p => p.1 == i)).map (fun p => p.2)

/-- Insertion into the status map (`status.insert(i, v)`): the new binding
shadows any previous binding for `i`. -/
def setStatus (i : Nat) (v : LaunchStatus) (m : StatusMap) : StatusMap :=
  (i, v) :: m

theorem getStatus_set_same (i : Nat) (v : LaunchStatus) (m : StatusMap) :
    getStatus (setStatus i v m) i = some v := by
  simp [getStatus, setStatus, List.find?]

theorem getStatus_set_ne (i j : Nat) (v : LaunchStatus) (m : StatusMap)
    (h : j ≠ i) : getStatus (setStatus j v m) i = getStatus m i := by
  unfold getStatus setStatus
  rw [List.find?_cons_of_neg]
  simp [h]

/-- Opaque handle to a spawned OS process (Rust `std::process::Child`). -/
structure Child where
  pid : Nat
deriving DecidableEq

/-- Embeds `struct Launched` from `src/main.rs`: the process handle plus the
source tag and source id the monitor needs. -/
structure Launched where
  child : Child
  launcher : Launcher
  id : String
deriving DecidableEq

/-- Path join, modelling `PathBuf::join` on Windows. -/
def joinPath (a b : String) : String := a ++ "\\" ++ b

/-- What `Game::launch` asks the OS to spawn: either the resolved command
with its working directory and args, or `cmd /C start <url>`. -/
inductive LaunchPlan where
  | RunCommand (cmd : String) (workdir : String) (cmdArgs : List String)
  | OpenUrl (cmd : String) (cmdArgs : List String)
deriving DecidableEq

/-- Embeds `Game::launch` (`src/main.rs` lines 101-142).  `spawn` stands for
`Command::spawn`: the OS either produces a child process or an error.
If both `install_directory` and `command` are present, the command is
resolved relative to the install directory and the working directory is the
install directory joined with the override subdirectory when present;
otherwise, if `launch_url` is present, `cmd /C start <url>` is spawned;
otherwise the call fails with the missing-launch-target error. -/
def launch (g : Game) (spawn : LaunchPlan → Except String Child) :
    Except LaunchError Child :=
  match g.install_directory, g.command with
  | some dir, some cmd =>
    let workdir :=
      match g.working_subdir_override with
      | some sub => joinPath dir sub
      | none => dir
    match spawn (LaunchPlan.RunCommand (joinPath dir cmd) workdir (g.args.getD [])) with
    | Except.ok c => Except.ok c
    | Except.error m => Except.error (LaunchError.SpawnFailure m)
  | _, _ =>
    match g.launch_url with
    | some url =>
      match spawn (LaunchPlan.OpenUrl "cmd" (["/C", "start", url])) with
      | Except.ok c => Except.ok c
      | Except.error m => Except.error (LaunchError.SpawnFailure m)
    | none => Except.error LaunchError.MissingLaunchTarget

/-- Foreground-side state touched by `Doorways::act`: the catalog, the shared
status map, whether the status thread/channel has been started, the messages
sent over the handoff channel so far (in order), and a count of the
successfully spawned processes. -/
structure AppState where
  games : List Game
  status : StatusMap
  statusChannelUp : Bool
  sent : List (Nat × Launched)
  spawned : Nat
deriving DecidableEq

/-- Embeds `TileHandler::act for Doorways` (`src/main.rs` lines 537-580).
If the stored status for `i` is `Starting` or `Running` the call returns at
once.  Otherwise it writes `Starting`, lazily starts the status thread,
launches the game, and on success sends the handle over the channel while on
failure it writes `FailedToLaunch`. -/
def act (s : AppState) (i : Nat) (spawn : LaunchPlan → Except String Child) :
    AppState :=
  match getStatus s.status i with
  | some LaunchStatus.Starting => s
  | some LaunchStatus.Running => s
  | _ =>
    let s1 : AppState :=
      { s with status := setStatus i LaunchStatus.Starting s.status,
               statusChannelUp := true }
    let g := s1.games.getD i dg
    match launch g spawn with
    | Except.ok c =>
      { s1 with sent := s1.sent ++ [(i, ⟨c, g.launcher, g.id⟩)],
                spawned := s1.spawned + 1 }
    | Except.error e =>
      { s1 with status := setStatus i (LaunchStatus.FailedToLaunch e) s1.status }

/-- Monitor-side state of `ChildMonitor`: the active handles and the shared
status map. -/
structure MonState where
  active : List (Nat × Launched)
  status : StatusMap
deriving DecidableEq

/-- OS-facing behaviour the monitor consults: `Child::try_wait` (`none` means
still running, `some code` means exited with that code, `Except.error` a
query failure, which the source treats as fatal) and the Steam registry's
per-title `Running` value keyed by source id. -/
structure PollEnv where
  tryWait : Child → Except String (Option Int)
  steamRunning : String → Except String Nat

/-- Embeds `steam_status` (`src/main.rs` lines 417-430) applied to the value
read from the registry: value `0x01` means the title is still running. -/
def steam_status (reg : Except String Nat) : Except String LaunchStatus :=
  match reg with
  | Except.error e => Except.error e
  | Except.ok running =>
    if running == 1 then Except.ok LaunchStatus.Running
    else Except.ok LaunchStatus.Success

/-- One `try_wait` arm of `poll_active` for a single handle: the computed
status and whether the handle is scheduled for removal from the active set.
An error from `try_wait` is the fatal `panic!` path of the source. -/
def pollEntry (env : PollEnv) (l : Launched) :
    Except String (LaunchStatus × Bool) :=
  match env.tryWait l.child with
  | Except.error e => Except.error e
  | Except.ok none => Except.ok (LaunchStatus.Running, false)
  | Except.ok (some code) =>
    let st :=
      if code == 0 then
        if l.launcher == Launcher.Steam then
          match steam_status (env.steamRunning l.id) with
          | Except.error _ => LaunchStatus.Error 1
          | Except.ok s => s
        else LaunchStatus.Success
      else LaunchStatus.Error code
    match st with
    | LaunchStatus.Running => Except.ok (st, false)
    | _ => Except.ok (st, true)

/-- The loop body of `poll_active` over the active handles, threading the
status map and the `to_remove` list. -/
def pollGo (env : PollEnv) :
    List (Nat × Launched) → StatusMap → List Nat →
      Except String (StatusMap × List Nat)
  | [], st, toRemove => Except.ok (st, toRemove)
  | (i, l) :: rest, st, toRemove =>
    match pollEntry env l with
    | Except.error e => Except.error e
    | Except.ok (ls, rem) =>
      pollGo env rest (setStatus i ls st) (if rem then toRemove ++ [i] else toRemove)

/-- The removal pass at the end of `poll_active`. -/
def removeAll (toRemove : List Nat) (active : List (Nat × Launched)) :
    List (Nat × Launched) :=
  active.filter (fun p => !(toRemove.contains p.1))

/-- Embeds `ChildMonitor::poll_active` (`src/main.rs` lines 444-484). -/
def poll_active (env : PollEnv) (s : MonState) : Except String MonState :=
  match pollGo env s.active s.status [] with
  | Except.error e => Except.error e
  | Except.ok (st, toRemove) => Except.ok ⟨removeAll toRemove s.active, st⟩

/-- What `rx.try_recv()` can yield on one iteration of `process`. -/
inductive RecvResult where
  | empty
  | disconnected
  | msg (i : Nat) (l : Launched)

/-- `HashMap::insert` on the active set: the new handle replaces any old
binding for the same index. -/
def insertActive (i : Nat) (l : Launched) (m : List (Nat × Launched)) :
    List (Nat × Launched) :=
  (i, l) :: m.filter (fun p => p.1 != i)

/-- Embeds one iteration of `ChildMonitor::process` (`src/main.rs` lines
486-502): a received handoff is inserted into the active set; an empty
channel triggers a poll pass (followed by the one-second sleep); a
disconnected channel is the fatal `panic!`. -/
def processStep (env : PollEnv) (r : RecvResult) (s : MonState) :
    Except String MonState :=
  match r with
  | RecvResult.msg i l => Except.ok { s with active := insertActive i l s.active }
  | RecvResult.empty => poll_active env s
  | RecvResult.disconnected => Except.error "Unexpected disconnection"

/-- A sequence of poll passes of the monitor loop, one per environment
snapshot. -/
def pollTrace : List PollEnv → MonState → Except String MonState
  | [], s => Except.ok s
  | e :: rest, s =>
    match poll_active e s with
    | Except.error m => Except.error m
    | Except.ok s2 => pollTrace rest s2

theorem pollGo_status_pres (env : PollEnv) (i : Nat) :
    ∀ (active : List (Nat × Launched)) (st : StatusMap) (tr : List Nat)
      (st2 : StatusMap) (tr2 : List Nat),
      active.all (fun p => p.1 != i) = true →
      pollGo env active st tr = Except.ok (st2, tr2) →
      getStatus st2 i = getStatus st i := by
  intro active
  induction active with
  | nil =>
    intro st tr st2 tr2 _ h
    simp [pollGo] at h
    rw [h.1]
  | cons hd tl ih =>
    intro st tr st2 tr2 hall h
    obtain ⟨j, l⟩ := hd
    rw [List.all_cons, Bool.and_eq_true] at hall
    have hj : j ≠ i := by
      have := hall.1
      simpa [bne_iff_ne] using this
    cases hpe : pollEntry env l with
    | error e =>
      rw [pollGo, hpe] at h
      cases h
    | ok v =>
      obtain ⟨ls, rem⟩ := v
      rw [pollGo, hpe] at h
      have := ih (setStatus j ls st) (if rem then tr ++ [j] else tr) st2 tr2 hall.2 h
      rw [this, getStatus_set_ne i j ls st hj]

theorem removeAll_all_ne (i : Nat) (toRemove : List Nat)
    (active : List (Nat × Launched))
    (h : active.all (fun p => p.1 != i) = true) :
    (removeAll toRemove active).all (fun p => p.1 != i) = true := by
  rw [List.all_eq_true] at h ⊢
  intro p hp
  exact h p (List.mem_of_mem_filter hp)

theorem poll_active_pres (env : PollEnv) (i : Nat) (s s2 : MonState)
    (hall : s.active.all (fun p => p.1 != i) = true)
    (h : poll_active env s = Except.ok s2) :
    getStatus s2.status i = getStatus s.status i
      ∧ s2.active.all (fun p => p.1 != i) = true := by
  unfold poll_active at h
  cases hgo : pollGo env s.active s.status [] with
  | error e => rw [hgo] at h; cases h
  | ok v =>
    obtain ⟨st, toRemove⟩ := v
    rw [hgo] at h
    cases h
    exact ⟨pollGo_status_pres env i s.active s.status [] st toRemove hall hgo,
           removeAll_all_ne i toRemove s.active hall⟩

theorem pollTrace_pres (i : Nat) :
    ∀ (envs : List PollEnv) (s0 s1 : MonState),
      s0.active.all (fun p => p.1 != i) = true →
      pollTrace envs s0 = Except.ok s1 →
      getStatus s1.status i = getStatus s0.status i
        ∧ s1.active.all (fun p => p.1 != i) = true := by
  intro envs
  induction envs with
  | nil =>
    intro s0 s1 hall h
    cases h
    exact ⟨rfl, hall⟩
  | cons e rest ih =>
    intro s0 s1 hall h
    cases hp : poll_active e s0 with
    | error m => rw [pollTrace, hp] at h; cases h
    | ok s2 =>
      rw [pollTrace, hp] at h
      obtain ⟨h1, h2⟩ := poll_active_pres e i s0 s2 hall hp
      obtain ⟨h3, h4⟩ := ih s2 s1 h2 h
      exact ⟨h3.trans h1, h4⟩

/-- Ordering on games used by `Doorways::sort`: compare titles
(`e1.title.cmp(&e2.title)`). -/
def titleOrder : Game → Game → Prop := fun a b => a.title ≤ b.title

instance : DecidableRel titleOrder :=
  fun a b => inferInstanceAs (Decidable (a.title ≤ b.title))

instance : IsTotal Game titleOrder := ⟨fun a b => le_total a.title b.title⟩

instance : IsTrans Game titleOrder := ⟨fun _ _ _ hab hbc => le_trans hab hbc⟩

/-- The part of `struct Doorways` touched by `sort`: the catalog and the
cached rendered textures (modelled as opaque tokens). -/
structure GridState where
  games : List Game
  images : List (Option Nat)
deriving DecidableEq

/-- Embeds `Doorways::sort` (`src/main.rs` lines 381-386): sort the catalog
by title and clear the image cache. -/
def sortDoorways (d : GridState) : GridState :=
  { games := d.games.insertionSort titleOrder, images := [] }

/-- The hidden-reset loop at the start of the `--refresh` branch of `main`
(`src/main.rs` lines 814-817). -/
def resetHidden (games : List Game) : List Game :=
  games.map (fun g => { g with hidden := none })

/-- Embeds the `--refresh` branch of `main` (`src/main.rs` lines 812-831):
reset every `hidden` flag, then merge the Steam, Twitch and Epic discoveries
in that order.  No sort is performed on this path. -/
def refresh (games steam twitch epic : List Game) : List Game :=
  merge_with (merge_with (merge_with (resetHidden games) steam) twitch) epic

/-- The ids of a catalog, in order. -/
def gameIds (l : List Game) : List String := l.map (fun g => g.id)

theorem getD_map_lt (f : Game → Game) (l : List Game) (j : Nat)
    (h : j < l.length) : (l.map f).getD j dg = f (l.getD j dg) := by
  have h2 : l.get? j = some (l.get ⟨j, h⟩) := List.get?_eq_get h
  rw [List.getD_eq_get?, List.getD_eq_get?, List.get?_map, h2]
  rfl

theorem resetHidden_getD (games : List Game) (j : Nat) (h : j < games.length) :
    (resetHidden games).getD j dg = { games.getD j dg with hidden := none } :=
  getD_map_lt _ games j h

theorem refresh_getD (games steam twitch epic : List Game) (j : Nat)
    (h : j < games.length) :
    (refresh games steam twitch epic).getD j dg
      = applyAll epic (applyAll twitch (applyAll steam
          ({ games.getD j dg with hidden := none }))) := by
  have h0 : j < (resetHidden games).length := by
    simpa [resetHidden] using h
  have h1 : j < (merge_with (resetHidden games) steam).length :=
    lt_of_lt_of_le h0 (merge_with_length_le _ _)
  have h2 : j < (merge_with (merge_with (resetHidden games) steam) twitch).length :=
    lt_of_lt_of_le h1 (merge_with_length_le _ _)
  unfold refresh
  rw [merge_with_getD _ _ _ h2, merge_with_getD _ _ _ h1, merge_with_getD _ _ _ h0,
      resetHidden_getD games j h]

/-! Concrete fixtures used by witnesses and counterexamples. -/

/-- Existing catalog entry with user-owned fields set. -/
def wA : Game :=
  { id := "a", title := "Old", image_src := ImageSource.Path "old.png",
    installed := false, kids := some true, hidden := some false }

/-- Incoming entry with the same id as `wA` and fresh source data. -/
def wB : Game :=
  { id := "a", title := "New", image_src := ImageSource.Url "http://img",
    installed := true, launch_url := some "steam://rungameid/1",
    launcher := Launcher.Steam }

/-- Incoming entry with a brand new id. -/
def wC : Game :=
  { id := "b", title := "Brand New", image_src := ImageSource.Path "c.png",
    installed := true }

/-- Two incoming entries sharing one id. -/
def dupX : Game :=
  { id := "dup", title := "First", image_src := ImageSource.Path "x", installed := true }

/-- Second incoming entry with the duplicated id. -/
def dupY : Game :=
  { id := "dup", title := "Second", image_src := ImageSource.Path "y", installed := true }

/-- C1: for a matching id, the merge loop body overwrites the existing
entry's title, image reference, installed flag, launch descriptor fields and
source tag with the incoming values, and across a whole merge the
user-owned `kids` and `hidden` fields of every existing entry are exactly
preserved. -/
theorem merge_overwrite_user_fields :
    (∀ custom orig : Game, orig.id = custom.id →
      ((if orig.id == custom.id then overwriteFrom custom orig else custom)
          = overwriteFrom custom orig
        ∧ (overwriteFrom custom orig).title = orig.title
        ∧ (overwriteFrom custom orig).image_src = orig.image_src
        ∧ (overwriteFrom custom orig).installed = orig.installed
        ∧ (overwriteFrom custom orig).install_directory = orig.install_directory
        ∧ (overwriteFrom custom orig).working_subdir_override
            = orig.working_subdir_override
        ∧ (overwriteFrom custom orig).command = orig.command
        ∧ (overwriteFrom custom orig).args = orig.args
        ∧ (overwriteFrom custom orig).launch_url = orig.launch_url
        ∧ (overwriteFrom custom orig).launcher = orig.launcher
        ∧ (overwriteFrom custom orig).kids = custom.kids
        ∧ (overwriteFrom custom orig).hidden = custom.hidden))
    ∧ (∀ (self other : List Game) (j : Nat), j < self.length →
        ((merge_with self other).getD j dg).kids = (self.getD j dg).kids
        ∧ ((merge_with self other).getD j dg).hidden = (self.getD j dg).hidden) := by
  constructor
  · intro custom orig h
    exact ⟨by simp [h], rfl, rfl, rfl, rfl, rfl, rfl, rfl, rfl, rfl, rfl, rfl⟩
  · intro self other j hj
    rw [merge_with_getD self other j hj]
    exact ⟨applyAll_kids other _, applyAll_hidden other _⟩

/-- Witness for C1 at the spec's own scenario: `wA` (kids set by the user)
merged with `wB` (same id) and `wC` (new id). -/
theorem merge_overwrite_user_fields_witness :
    ((if wB.id == wA.id then overwriteFrom wA wB else wA) = overwriteFrom wA wB
      ∧ (overwriteFrom wA wB).title = wB.title
      ∧ (overwriteFrom wA wB).image_src = wB.image_src
      ∧ (overwriteFrom wA wB).installed = wB.installed
      ∧ (overwriteFrom wA wB).install_directory = wB.install_directory
      ∧ (overwriteFrom wA wB).working_subdir_override = wB.working_subdir_override
      ∧ (overwriteFrom wA wB).command = wB.command
      ∧ (overwriteFrom wA wB).args = wB.args
      ∧ (overwriteFrom wA wB).launch_url = wB.launch_url
      ∧ (overwriteFrom wA wB).launcher = wB.launcher
      ∧ (overwriteFrom wA wB).kids = wA.kids
      ∧ (overwriteFrom wA wB).hidden = wA.hidden)
    ∧ (((merge_with [wA] [wB, wC]).getD 0 dg).kids = ([wA].getD 0 dg).kids
      ∧ ((merge_with [wA] [wB, wC]).getD 0 dg).hidden = ([wA].getD 0 dg).hidden) :=
  ⟨merge_overwrite_user_fields.1 wA wB rfl,
   merge_overwrite_user_fields.2 [wA] [wB, wC] 0 (by decide)⟩

/-- C6: the merged catalog is exactly the existing entries, in place and in
order (each updated by the matching incoming entries), followed by the
incoming entries whose id matches no existing entry, each appended exactly
once and in their incoming relative order; entries whose id is already
present are never appended. -/
theorem merge_append_unmatched :
    ∀ self other : List Game,
      merge_with self other
        = self.map (fun c => applyAll other c)
          ++ other.filter (fun o => !(idKnown self o.id))
      ∧ (self.map (fun c => applyAll other c)).length = self.length := by
  intro self other
  exact ⟨merge_with_eq self other, List.length_map self _⟩

/-- C7 counterexample: an existing catalog with pairwise distinct ids (the
empty one) merged with an incoming sequence that repeats an id yields a
merged catalog with a duplicated id, refuting the claim for arbitrary
incoming sequences. -/
theorem merge_ids_nodup_cex :
    (gameIds ([] : List Game)).Nodup
    ∧ ¬ (gameIds (merge_with ([] : List Game) [dupX, dupY])).Nodup := by
  constructor
  · exact List.nodup_nil
  · decide

/-- C7 amended: if the existing catalog's ids are pairwise distinct and the
incoming sequence's ids are also pairwise distinct, then the merged
catalog's ids are pairwise distinct. -/
theorem merge_ids_nodup :
    ∀ self other : List Game,
      (gameIds self).Nodup → (gameIds other).Nodup →
      (gameIds (merge_with self other)).Nodup := by
  intro self other hs ho
  unfold gameIds at hs ho ⊢
  rw [merge_with_eq, List.map_append, List.map_map]
  have hcomp : ((fun g : Game => g.id) ∘ (fun c => applyAll other c))
      = fun c : Game => c.id := by
    funext c
    exact applyAll_id other c
  rw [hcomp, List.nodup_append]
  refine ⟨hs, ?_, ?_⟩
  · exact ho.sublist ((List.filter_sublist other).map _)
  · intro x hx1 hx2
    obtain ⟨o, ho2, rfl⟩ := List.mem_map.mp hx2
    have hmem := List.mem_filter.mp ho2
    have hfalse : idKnown self o.id = false := by simpa using hmem.2
    have htrue : idKnown self o.id = true := by
      unfold idKnown
      rw [List.any_eq_true]
      obtain ⟨c, hc, hcid⟩ := List.mem_map.mp hx1
      exact ⟨c, hc, by simp [hcid]⟩
    rw [htrue] at hfalse
    cases hfalse

/-- Witness for the amended C7 on catalogs with distinct ids. -/
theorem merge_ids_nodup_witness :
    (gameIds (merge_with [wA] [wB, wC])).Nodup :=
  merge_ids_nodup [wA] [wB, wC] (by decide) (by decide)

/-- Spawn oracle that always produces the process handle with pid 9. -/
def cSpawnOk : LaunchPlan → Except String Child := fun _ => Except.ok ⟨9⟩

/-- App state whose entry 0 is `wB` (launchable by URL) and has no status. -/
def csIdle : AppState := ⟨[wB], [], false, [], 0⟩

/-- App state whose entry 0 is currently `Running`. -/
def csBusy : AppState := ⟨[wB], [(0, LaunchStatus.Running)], true, [], 0⟩

/-- Entry with no launch URL, no install directory and no command. -/
def wEmpty : Game :=
  { id := "e", title := "Empty", image_src := ImageSource.Path "e", installed := true }

/-- App state whose entry 0 is the unlaunchable `wEmpty`. -/
def csEmpty : AppState := ⟨[wEmpty], [], false, [], 0⟩

theorem act_of_starting (s : AppState) (i : Nat)
    (spawn : LaunchPlan → Except String Child)
    (h : getStatus s.status i = some LaunchStatus.Starting) : act s i spawn = s := by
  unfold act
  rw [h]

theorem act_of_running (s : AppState) (i : Nat)
    (spawn : LaunchPlan → Except String Child)
    (h : getStatus s.status i = some LaunchStatus.Running) : act s i spawn = s := by
  unfold act
  rw [h]

/-- C2: if the stored status for `i` is `Starting` or `Running`, `act` is a
no-op (same state: no spawn, no status change, nothing sent); and when a
first call does launch (spawn succeeds), the status becomes `Starting`, an
immediately following second call changes nothing, and exactly one process
was spawned across the two calls. -/
theorem act_in_flight_noop :
    (∀ (s : AppState) (i : Nat) (spawn : LaunchPlan → Except String Child),
      (getStatus s.status i = some LaunchStatus.Starting
        ∨ getStatus s.status i = some LaunchStatus.Running) →
      act s i spawn = s)
    ∧ (∀ (s : AppState) (i : Nat)
        (spawn spawn2 : LaunchPlan → Except String Child) (c : Child),
        getStatus s.status i ≠ some LaunchStatus.Starting →
        getStatus s.status i ≠ some LaunchStatus.Running →
        launch (s.games.getD i dg) spawn = Except.ok c →
        getStatus (act s i spawn).status i = some LaunchStatus.Starting
        ∧ act (act s i spawn) i spawn2 = act s i spawn
        ∧ (act s i spawn).spawned = s.spawned + 1) := by
  constructor
  · intro s i spawn h
    cases h with
    | inl h => exact act_of_starting s i spawn h
    | inr h => exact act_of_running s i spawn h
  · intro s i spawn spawn2 c h1 h2 hlaunch
    have hact : act s i spawn
        = { s with status := setStatus i LaunchStatus.Starting s.status,
                   statusChannelUp := true,
                   sent := s.sent ++ [(i, ⟨c, (s.games.getD i dg).launcher,
                                            (s.games.getD i dg).id⟩)],
                   spawned := s.spawned + 1 } := by
      unfold act
      cases hstat : getStatus s.status i with
      | none => simp only [hstat, hlaunch]
      | some st =>
        cases st with
        | Starting => exact absurd hstat h1
        | Running => exact absurd hstat h2
        | Success => simp only [hstat, hlaunch]
        | FailedToLaunch r => simp only [hstat, hlaunch]
        | Error code => simp only [hstat, hlaunch]
    have hstart : getStatus (act s i spawn).status i = some LaunchStatus.Starting := by
      rw [hact]
      exact getStatus_set_same i LaunchStatus.Starting s.status
    exact ⟨hstart, act_of_starting (act s i spawn) i spawn2 hstart, by rw [hact]⟩

/-- Witness for C2: a `Running` entry is not relaunched, and a fresh launch
of entry 0 of `csIdle` spawns exactly once across two calls. -/
theorem act_in_flight_noop_witness :
    act csBusy 0 cSpawnOk = csBusy
    ∧ getStatus (act csIdle 0 cSpawnOk).status 0 = some LaunchStatus.Starting
    ∧ act (act csIdle 0 cSpawnOk) 0 cSpawnOk = act csIdle 0 cSpawnOk
    ∧ (act csIdle 0 cSpawnOk).spawned = csIdle.spawned + 1 := by
  have h2 := act_in_flight_noop.2 csIdle 0 cSpawnOk cSpawnOk ⟨9⟩
    (by decide) (by decide) rfl
  exact ⟨act_in_flight_noop.1 csBusy 0 cSpawnOk (Or.inr rfl), h2.1, h2.2.1, h2.2.2⟩

/-- C5: activating an in-bounds entry that has no launch URL and lacks the
install-directory-plus-command pair (when it is not already in flight)
writes `FailedToLaunch MissingLaunchTarget` for that index, sends nothing
over the handoff channel, spawns nothing and leaves the catalog unchanged;
with nothing handed off, the monitor's active set cannot change. -/
theorem act_missing_target :
    ∀ (s : AppState) (i : Nat) (spawn : LaunchPlan → Except String Child)
      (h : i < s.games.length),
      s.games[i].launch_url = none →
      (s.games[i].install_directory = none
        ∨ s.games[i].command = none) →
      getStatus s.status i ≠ some LaunchStatus.Starting →
      getStatus s.status i ≠ some LaunchStatus.Running →
      getStatus (act s i spawn).status i
          = some (LaunchStatus.FailedToLaunch LaunchError.MissingLaunchTarget)
      ∧ (act s i spawn).sent = s.sent
      ∧ (act s i spawn).spawned = s.spawned
      ∧ (act s i spawn).games = s.games := by
  intro s i spawn h hurl hdc h1 h2
  have hgd : s.games.getD i dg = s.games[i] := by
    rw [List.getD_eq_get?, List.get?_eq_get h]
    rfl
  have hlaunch : launch (s.games.getD i dg) spawn
      = Except.error LaunchError.MissingLaunchTarget := by
    rw [hgd]
    unfold launch
    rcases hdc with hd | hc
    · rw [hd]
      simp [hurl]
    · rw [hc]
      cases hdir : s.games[i].install_directory with
      | none => simp [hurl]
      | some dir => simp [hurl]
  have hact : act s i spawn
      = { s with status := setStatus i
                    (LaunchStatus.FailedToLaunch LaunchError.MissingLaunchTarget)
                    (setStatus i LaunchStatus.Starting s.status),
                 statusChannelUp := true } := by
    unfold act
    cases hstat : getStatus s.status i with
    | none => simp only [hstat, hlaunch]
    | some st =>
      cases st with
      | Starting => exact absurd hstat h1
      | Running => exact absurd hstat h2
      | Success => simp only [hstat, hlaunch]
      | FailedToLaunch r => simp only [hstat, hlaunch]
      | Error code => simp only [hstat, hlaunch]
  rw [hact]
  exact ⟨getStatus_set_same i _ _, rfl, rfl, rfl⟩

/-- Witness for C5 at `csEmpty`, whose entry 0 has no launch target. -/
theorem act_missing_target_witness :
    getStatus (act csEmpty 0 cSpawnOk).status 0
        = some (LaunchStatus.FailedToLaunch LaunchError.MissingLaunchTarget)
    ∧ (act csEmpty 0 cSpawnOk).sent = csEmpty.sent
    ∧ (act csEmpty 0 cSpawnOk).spawned = csEmpty.spawned
    ∧ (act csEmpty 0 cSpawnOk).games = csEmpty.games :=
  act_missing_target csEmpty 0 cSpawnOk (by decide) rfl (Or.inl rfl)
    (by decide) (by decide)

/-- A tracked Steam handle used by the monitor witnesses. -/
def cL : Launched := ⟨⟨7⟩, Launcher.Steam, "42"⟩

/-- Environment where the child is still running. -/
def cEnvIdle : PollEnv := ⟨fun _ => Except.ok none, fun _ => Except.ok 0⟩

/-- Environment where the child exited 0 and the Steam registry says the
title is still running. -/
def cEnvSteamRun : PollEnv := ⟨fun _ => Except.ok (some 0), fun _ => Except.ok 1⟩

/-- Environment where the child exited with code 3. -/
def cEnvExit3 : PollEnv := ⟨fun _ => Except.ok (some 3), fun _ => Except.ok 1⟩

/-- C3: for a tracked Steam handle whose process exited with code 0, the
poll pass consults the registry probe: probe value 1 (still active) writes
`Running` and keeps the handle in the active set; any other probe value
writes `Success` and removes the handle; a probe failure writes the
sentinel `Error 1` and removes the handle. -/
theorem poll_steam_probe :
    ∀ (env : PollEnv) (i : Nat) (l : Launched) (st : StatusMap),
      l.launcher = Launcher.Steam →
      env.tryWait l.child = Except.ok (some 0) →
      ((env.steamRunning l.id = Except.ok 1 →
          poll_active env ⟨[(i, l)], st⟩
            = Except.ok ⟨[(i, l)], setStatus i LaunchStatus.Running st⟩)
        ∧ (∀ v : Nat, env.steamRunning l.id = Except.ok v → v ≠ 1 →
            poll_active env ⟨[(i, l)], st⟩
              = Except.ok ⟨[], setStatus i LaunchStatus.Success st⟩)
        ∧ (∀ e : String, env.steamRunning l.id = Except.error e →
            poll_active env ⟨[(i, l)], st⟩
              = Except.ok ⟨[], setStatus i (LaunchStatus.Error 1) st⟩)) := by
  intro env i l st hl hw
  refine ⟨?_, ?_, ?_⟩
  · intro hreg
    simp [poll_active, pollGo, pollEntry, hw, hl, steam_status, hreg, removeAll]
  · intro v hreg hv
    simp [poll_active, pollGo, pollEntry, hw, hl, steam_status, hreg, hv, removeAll]
  · intro e hreg
    simp [poll_active, pollGo, pollEntry, hw, hl, steam_status, hreg, removeAll]

/-- Witness for C3: the still-active case at a concrete environment. -/
theorem poll_steam_probe_witness :
    poll_active cEnvSteamRun ⟨[(3, cL)], []⟩
      = Except.ok ⟨[(3, cL)], setStatus 3 LaunchStatus.Running []⟩ :=
  (poll_steam_probe cEnvSteamRun 3 cL [] rfl rfl).1 rfl

/-- C4: a tracked handle whose process exited with a nonzero code gets
status `Error code` on the next poll pass and leaves the active set; from
then on, any sequence of poll passes of a monitor state not tracking that
index leaves its status `Error code` and never re-adds the index. -/
theorem poll_error_terminal :
    ∀ (env : PollEnv) (i : Nat) (l : Launched) (st : StatusMap) (code : Int),
      env.tryWait l.child = Except.ok (some code) →
      code ≠ 0 →
      (poll_active env ⟨[(i, l)], st⟩
        = Except.ok ⟨[], setStatus i (LaunchStatus.Error code) st⟩)
      ∧ (∀ (envs : List PollEnv) (s0 s1 : MonState),
          s0.active.all (fun p => p.1 != i) = true →
          getStatus s0.status i = some (LaunchStatus.Error code) →
          pollTrace envs s0 = Except.ok s1 →
          getStatus s1.status i = some (LaunchStatus.Error code)
          ∧ s1.active.all (fun p => p.1 != i) = true) := by
  intro env i l st code hw hc
  constructor
  · simp [poll_active, pollGo, pollEntry, hw, hc, removeAll]
  · intro envs s0 s1 hall hst htr
    obtain ⟨h1, h2⟩ := pollTrace_pres i envs s0 s1 hall htr
    exact ⟨h1.trans hst, h2⟩

/-- Witness for C4 at a concrete exit code 3. -/
theorem poll_error_terminal_witness :
    poll_active cEnvExit3 ⟨[(0, cL)], []⟩
      = Except.ok ⟨[], setStatus 0 (LaunchStatus.Error 3) []⟩
    ∧ getStatus (setStatus 0 (LaunchStatus.Error 3) []) 0
        = some (LaunchStatus.Error 3) := by
  have h := poll_error_terminal cEnvExit3 0 cL [] 3 rfl (by decide)
  exact ⟨h.1,
    (h.2 [cEnvIdle] ⟨[], setStatus 0 (LaunchStatus.Error 3) []⟩
      ⟨[], setStatus 0 (LaunchStatus.Error 3) []⟩ rfl rfl rfl).1⟩

/-- C8 counterexample: draining a handoff adds the handle to the active set
but writes no status at all — in particular the status for the drained
index is not `Starting` afterwards (here it is still absent), refuting the
claim that the monitor writes `Starting` for each drained handoff. -/
theorem drain_no_status_write_cex :
    processStep cEnvIdle (RecvResult.msg 0 cL) ⟨[], []⟩
        = Except.ok ⟨[(0, cL)], []⟩
    ∧ getStatus ([] : StatusMap) 0 ≠ some LaunchStatus.Starting := by
  exact ⟨rfl, by decide⟩

/-- C8 amended: on each iteration the monitor receives a pending handoff
without blocking and adds the handle to the active set, leaving the status
map untouched (the `Starting` status was already written by the coordinator
before handoff); the next poll pass upgrades a still-running handle to
`Running`. -/
theorem drain_adds_active :
    (∀ (env : PollEnv) (i : Nat) (l : Launched) (s : MonState),
      processStep env (RecvResult.msg i l) s
        = Except.ok ⟨insertActive i l s.active, s.status⟩)
    ∧ (∀ (env : PollEnv) (i : Nat) (l : Launched) (st : StatusMap),
        env.tryWait l.child = Except.ok none →
        poll_active env ⟨[(i, l)], st⟩
          = Except.ok ⟨[(i, l)], setStatus i LaunchStatus.Running st⟩) := by
  constructor
  · intro env i l s
    rfl
  · intro env i l st hw
    simp [poll_active, pollGo, pollEntry, hw, removeAll]

/-- Witness for the amended C8 at a concrete handle and environment. -/
theorem drain_adds_active_witness :
    processStep cEnvIdle (RecvResult.msg 1 cL) ⟨[], []⟩
        = Except.ok ⟨insertActive 1 cL [], []⟩
    ∧ poll_active cEnvIdle ⟨[(1, cL)], []⟩
        = Except.ok ⟨[(1, cL)], setStatus 1 LaunchStatus.Running []⟩ :=
  ⟨drain_adds_active.1 cEnvIdle 1 cL ⟨[], []⟩,
   drain_adds_active.2 cEnvIdle 1 cL [] rfl⟩

/-- Persisted entry whose title sorts after the incoming one. -/
def cOld : Game :=
  { id := "b", title := "Beta", image_src := ImageSource.Path "b.png", installed := true }

/-- Freshly discovered entry whose title sorts before `cOld`. -/
def cNew : Game :=
  { id := "a", title := "Alpha", image_src := ImageSource.Path "a.png", installed := true }

/-- C9 counterexample: starting from a title-sorted persisted catalog, the
refresh merge appends a new entry whose title sorts earlier, and no re-sort
happens on the refresh path, so the catalog reaching display is not sorted
by title. -/
theorem refresh_unsorted_cex :
    List.Sorted titleOrder [cOld]
    ∧ ¬ List.Sorted titleOrder (refresh [cOld] [cNew] [] []) := by
  constructor
  · exact List.sorted_singleton _
  · intro hsorted
    have heq : refresh [cOld] [cNew] [] []
        = [{ cOld with hidden := none }, cNew] := by decide
    rw [heq] at hsorted
    have hrel : titleOrder { cOld with hidden := none } cNew :=
      List.rel_of_sorted_cons hsorted cNew (by simp)
    have hb : ¬ (("Beta" : String) ≤ "Alpha") := by
      rw [String.le_iff_toList_le]
      decide
    exact hb hrel

/-- C9 amended: `sort` (invoked when the catalog is loaded from disk, not
after the refresh merges) fully sorts the catalog by title and empties the
image cache, which is then rebuilt lazily; the refresh path itself performs
the merges without re-sorting, keeping every existing entry at its original
position (same id) and appending new entries at the end. -/
theorem sort_clears_images_refresh_keeps_order :
    (∀ d : GridState,
      (sortDoorways d).images = []
      ∧ List.Sorted titleOrder (sortDoorways d).games
      ∧ (sortDoorways d).games.Perm d.games)
    ∧ (∀ (games steam twitch epic : List Game) (j : Nat), j < games.length →
        ((refresh games steam twitch epic).getD j dg).id
          = (games.getD j dg).id) := by
  constructor
  · intro d
    exact ⟨rfl, List.sorted_insertionSort titleOrder d.games,
           List.perm_insertionSort titleOrder d.games⟩
  · intro games s t e j hj
    rw [refresh_getD games s t e j hj, applyAll_id, applyAll_id, applyAll_id]

/-- Witness for the amended C9 at a concrete catalog. -/
theorem sort_refresh_witness :
    (sortDoorways ⟨[cOld], [some 5]⟩).images = []
    ∧ List.Sorted titleOrder (sortDoorways ⟨[cOld], [some 5]⟩).games
    ∧ (sortDoorways ⟨[cOld], [some 5]⟩).games.Perm [cOld]
    ∧ ((refresh [cOld] [cNew] [] []).getD 0 dg).id = ([cOld].getD 0 dg).id := by
  have h1 := sort_clears_images_refresh_keeps_order.1 ⟨[cOld], [some 5]⟩
  exact ⟨h1.1, h1.2.1, h1.2.2,
    sort_clears_images_refresh_keeps_order.2 [cOld] [cNew] [] [] 0 (by decide)⟩

/-- C10: when a refresh runs, every entry of the persisted catalog has its
user-owned `hidden` field reset to `none` before any merge, and since the
merges never touch `hidden`, the entries at the original positions still
carry `hidden = none` after the whole refresh. -/
theorem refresh_resets_hidden :
    ∀ (games steam twitch epic : List Game) (j : Nat), j < games.length →
      ((resetHidden games).getD j dg).hidden = none
      ∧ ((refresh games steam twitch epic).getD j dg).hidden = none := by
  intro games s t e j hj
  constructor
  · rw [resetHidden_getD games j hj]
  · rw [refresh_getD games s t e j hj, applyAll_hidden, applyAll_hidden,
        applyAll_hidden]

/-- Witness for C10: `wA` has `hidden = some false` before the refresh and
`none` afterwards. -/
theorem refresh_resets_hidden_witness :
    ((resetHidden [wA]).getD 0 dg).hidden = none
    ∧ ((refresh [wA] [wB, wC] [] []).getD 0 dg).hidden = none :=
  refresh_resets_hidden [wA] [wB, wC] [] [] 0 (by decide)

end Doorways
